import Mathlib

/-!
Verification model of the California housing dashboard
(src/california_dashboard.py).

The dashboard loads a tabular housing dataset, derives ratio and bin
columns (`load_data`), applies a conjunction of four range / set
predicates coming from sidebar widgets (`filtered`), and computes
summary statistics (KPI means, Pearson correlations) over the filtered
view.

Numeric cell values produced by division are modelled by `FpVal`, an
exact-rational rendering of IEEE floating point values restricted to
what the program can produce: finite values (raw CSV columns are finite
rationals), the two infinities and NaN arising from division by zero.
Rounding plays no role in any claim, so finite values are kept exact.
-/

/-- A floating-point cell value: finite rational, plus or minus
infinity, or NaN.  Mirrors the value space of the dataframe columns
produced by `load_data`. -/
inductive FpVal where
  | fin (q : ℚ)
  | inf
  | ninf
  | nan
deriving DecidableEq

/-- IEEE `<=` on cell values: any comparison against NaN is false,
`-inf <= x` and `x <= +inf` hold for non-NaN `x`, finite values compare
as rationals. -/
def FpVal.le : FpVal → FpVal → Bool
  | .nan, _ => false
  | _, .nan => false
  | .ninf, _ => true
  | _, .inf => true
  | .inf, _ => false
  | _, .ninf => false
  | .fin a, .fin b => decide (a ≤ b)

/-- Is the value finite? -/
def FpVal.isFin : FpVal → Bool
  | .fin _ => true
  | _ => false

/-- Extract the finite value, if any. -/
def FpVal.toFin : FpVal → Option ℚ
  | .fin q => some q
  | _ => none

/-- IEEE division of two finite values, as performed elementwise by the
dataframe when `load_data` computes the derived ratio columns:
`x / 0` is NaN when `x = 0` and a signed infinity otherwise. -/
def fdivQ (a b : ℚ) : FpVal :=
  if b = 0 then
    (if a = 0 then FpVal.nan else if 0 < a then FpVal.inf else FpVal.ninf)
  else FpVal.fin (a / b)

/-- `Series.between(lo, hi)` on one cell: inclusive on both ends, false
whenever the cell or a bound is NaN. -/
def betweenF (x lo hi : FpVal) : Bool :=
  FpVal.le lo x && FpVal.le x hi

/-- One row of the input CSV: the nine numeric columns and the
categorical `ocean_proximity` label. -/
structure RawRecord where
  longitude : ℚ
  latitude : ℚ
  housing_median_age : ℚ
  total_rooms : ℚ
  total_bedrooms : ℚ
  population : ℚ
  households : ℚ
  median_income : ℚ
  median_house_value : ℚ
  ocean_proximity : String
deriving DecidableEq

/-- One row after `load_data`: the raw columns plus the six derived
columns. -/
structure PreparedRecord where
  longitude : ℚ
  latitude : ℚ
  housing_median_age : ℚ
  total_rooms : ℚ
  total_bedrooms : ℚ
  population : ℚ
  households : ℚ
  median_income : ℚ
  median_house_value : ℚ
  ocean_proximity : String
  rooms_per_household : FpVal
  bedrooms_per_room : FpVal
  population_per_household : FpVal
  lat_bin : Option (Fin 5)
  age_bin : Option (Fin 10)
  age_category : String
deriving DecidableEq

/-- `pd.cut(age, bins=range(0, 55, 5))`: fixed edges 0,5,...,50, each
interval right-closed and left-open, so the bins are
(0,5], (5,10], ..., (45,50]; values outside (0,50] get no bin. -/
def ageBin (v : ℚ) : Option (Fin 10) :=
  if 0 < v ∧ v ≤ 50 then
    (if v ≤ 5 then some 0
     else if v ≤ 10 then some 1
     else if v ≤ 15 then some 2
     else if v ≤ 20 then some 3
     else if v ≤ 25 then some 4
     else if v ≤ 30 then some 5
     else if v ≤ 35 then some 6
     else if v ≤ 40 then some 7
     else if v ≤ 45 then some 8
     else some 9)
  else none

/-- `pd.cut(lat, bins=5)`: five equal-width right-closed intervals over
the observed range.  When min < max the edges are
`mn + i*(mx-mn)/5` with the lowest edge pushed down by 0.1% of the range
so the minimum value is included; when min = max both ends are moved out
by 0.1% of `|mn|` (or by 0.001 when `mn = 0`) before splitting. -/
def latBin (mn mx v : ℚ) : Option (Fin 5) :=
  if mn = mx then
    let lo := if mn = 0 then mn - 1/1000 else mn - |mn| / 1000
    let hi := if mx = 0 then mx + 1/1000 else mx + |mx| / 1000
    let w := (hi - lo) / 5
    if lo < v ∧ v ≤ hi then
      (if v ≤ lo + w then some 0
       else if v ≤ lo + 2*w then some 1
       else if v ≤ lo + 3*w then some 2
       else if v ≤ lo + 4*w then some 3
       else some 4)
    else none
  else
    if mn - (mx - mn) / 1000 < v ∧ v ≤ mx then
      (if v ≤ mn + (mx - mn) / 5 then some 0
       else if v ≤ mn + 2 * ((mx - mn) / 5) then some 1
       else if v ≤ mn + 3 * ((mx - mn) / 5) then some 2
       else if v ≤ mn + 4 * ((mx - mn) / 5) then some 3
       else some 4)
    else none

/-- The bin edges of `latBin` in the ordinary case `mn < mx`: edge 0 is
the 0.1%-extended lower edge, edge `i` for `1 ≤ i ≤ 5` is
`mn + i*(mx-mn)/5`. -/
def latEdge (mn mx : ℚ) (i : ℕ) : ℚ :=
  if i = 0 then mn - (mx - mn) / 1000 else mn + i * ((mx - mn) / 5)

/-- Modelled from the spec: the spec's own description of the lat-bin
assignment — "bin width = (max-min)/5 and assigning each record to
floor((value-min)/width), clamping the maximum value into the last
bin". Stated here only to be compared against `latBin`, the embedding
of what `pd.cut` actually does. -/
def latBinSpec (mn mx v : ℚ) : ℕ :=
  min 4 (Int.toNat ⌊(v - mn) / ((mx - mn) / 5)⌋)

/-- Observed minimum latitude of the raw dataset (0 for an empty
dataset, where it is never used). -/
def latMinOf (d : List RawRecord) : ℚ :=
  match d.map RawRecord.latitude with
  | [] => 0
  | x :: xs => xs.foldl min x

/-- Observed maximum latitude of the raw dataset. -/
def latMaxOf (d : List RawRecord) : ℚ :=
  match d.map RawRecord.latitude with
  | [] => 0
  | x :: xs => xs.foldl max x

/-- Feature engineering for one row, given the observed latitude range
of the whole dataset (needed by `lat_bin`). -/
def prepareRecord (mn mx : ℚ) (r : RawRecord) : PreparedRecord :=
  { longitude := r.longitude
    latitude := r.latitude
    housing_median_age := r.housing_median_age
    total_rooms := r.total_rooms
    total_bedrooms := r.total_bedrooms
    population := r.population
    households := r.households
    median_income := r.median_income
    median_house_value := r.median_house_value
    ocean_proximity := r.ocean_proximity
    rooms_per_household := fdivQ r.total_rooms r.households
    bedrooms_per_room := fdivQ r.total_bedrooms r.total_rooms
    population_per_household := fdivQ r.population r.households
    lat_bin := latBin mn mx r.latitude
    age_bin := ageBin r.housing_median_age
    age_category := if r.housing_median_age < 20 then "New (<20)" else "Old (>=20)" }

/-- `load_data`: read the rows and compute every derived column; the
`lat_bin` edges come from the observed min/max latitude of this
dataset. -/
def load_data (d : List RawRecord) : List PreparedRecord :=
  d.map (prepareRecord (latMinOf d) (latMaxOf d))

/-- The filter criteria delivered by the sidebar widgets: three
two-sided ranges and the selected ocean-proximity labels. -/
structure Criteria where
  ageLo : FpVal
  ageHi : FpVal
  incomeLo : FpVal
  incomeHi : FpVal
  rphLo : FpVal
  rphHi : FpVal
  oceanSel : List String
deriving DecidableEq

/-- `housing['housing_median_age'].between(*age_range)` on one row. -/
def agePred (c : Criteria) (r : PreparedRecord) : Bool :=
  betweenF (FpVal.fin r.housing_median_age) c.ageLo c.ageHi

/-- `housing['median_income'].between(*income_range)` on one row. -/
def incPred (c : Criteria) (r : PreparedRecord) : Bool :=
  betweenF (FpVal.fin r.median_income) c.incomeLo c.incomeHi

/-- `housing['rooms_per_household'].between(*rph_range)` on one row. -/
def rphPred (c : Criteria) (r : PreparedRecord) : Bool :=
  betweenF r.rooms_per_household c.rphLo c.rphHi

/-- `housing['ocean_proximity'].isin(selected_ocean)` on one row. -/
def oceanPred (c : Criteria) (r : PreparedRecord) : Bool :=
  decide (r.ocean_proximity ∈ c.oceanSel)

/-- Boolean-mask row selection, as performed by `housing[mask]`: keep
the rows whose mask entry is true. -/
def maskSelect : List PreparedRecord → List Bool → List PreparedRecord
  | [], _ => []
  | _, [] => []
  | r :: rs, b :: bs => if b then r :: maskSelect rs bs else maskSelect rs bs

/-- `filtered`: the four elementwise predicate masks are combined with
`&` (left-associated, as in the source) and the dataset is indexed by
the combined mask. -/
def filtered (d : List PreparedRecord) (c : Criteria) : List PreparedRecord :=
  maskSelect d
    (List.zipWith and
      (List.zipWith and
        (List.zipWith and (d.map (agePred c)) (d.map (incPred c)))
        (d.map (rphPred c)))
      (d.map (oceanPred c)))

/-- The conjunction of the four row predicates, associated the way the
source combines the masks. -/
def rowPred (c : Criteria) (r : PreparedRecord) : Bool :=
  agePred c r && incPred c r && rphPred c r && oceanPred c r

/-- Column minimum with pandas `skipna` semantics: NaN entries are
ignored; the result is NaN only when no non-NaN entry exists. -/
def fminOp (x acc : FpVal) : FpVal :=
  if x = FpVal.nan then acc
  else if acc = FpVal.nan then x
  else if FpVal.le x acc then x else acc

/-- Column maximum step, `skipna` semantics. -/
def fmaxOp (x acc : FpVal) : FpVal :=
  if x = FpVal.nan then acc
  else if acc = FpVal.nan then x
  else if FpVal.le acc x then x else acc

/-- `Series.min()` over a column of cell values. -/
def colMin (xs : List FpVal) : FpVal := xs.foldr fminOp FpVal.nan

/-- `Series.max()` over a column of cell values. -/
def colMax (xs : List FpVal) : FpVal := xs.foldr fmaxOp FpVal.nan

/-- The criteria in which every widget sits at its full observed
extent: each range spans the observed min/max of its column and every
distinct ocean-proximity label is selected. -/
def identityCriteria (v : List PreparedRecord) : Criteria :=
  { ageLo := colMin (v.map (fun r => FpVal.fin r.housing_median_age))
    ageHi := colMax (v.map (fun r => FpVal.fin r.housing_median_age))
    incomeLo := colMin (v.map (fun r => FpVal.fin r.median_income))
    incomeHi := colMax (v.map (fun r => FpVal.fin r.median_income))
    rphLo := colMin (v.map PreparedRecord.rooms_per_household)
    rphHi := colMax (v.map PreparedRecord.rooms_per_household)
    oceanSel := (v.map PreparedRecord.ocean_proximity).dedup }

/-- `Series.mean()` with pandas NaN handling: NaN entries are skipped;
an empty (or all-NaN) column yields NaN; infinities are NOT skipped and
propagate into the mean. -/
def meanF (xs : List FpVal) : FpVal :=
  let ys := xs.filter (fun x => decide (x ≠ FpVal.nan))
  if ys.isEmpty then FpVal.nan
  else if ys.any (fun y => decide (y = FpVal.inf)) &&
          ys.any (fun y => decide (y = FpVal.ninf)) then FpVal.nan
  else if ys.any (fun y => decide (y = FpVal.inf)) then FpVal.inf
  else if ys.any (fun y => decide (y = FpVal.ninf)) then FpVal.ninf
  else FpVal.fin ((ys.filterMap FpVal.toFin).sum / ys.length)

/-- The value rendered by the first KPI card:
`filtered['median_house_value'].mean()`. -/
def kpiAvgHouseValue (v : List PreparedRecord) : FpVal :=
  meanF (v.map (fun r => FpVal.fin r.median_house_value))

/-- The value rendered by the second KPI card:
`filtered['median_income'].mean()`. -/
def kpiAvgIncome (v : List PreparedRecord) : FpVal :=
  meanF (v.map (fun r => FpVal.fin r.median_income))

/-- The value rendered by the third KPI card: `len(filtered)`. -/
def kpiCount (v : List PreparedRecord) : ℕ := v.length

/-- The ten numeric columns of the correlation heatmap, in the order of
`num_cols` in the source. -/
def tenCols (r : PreparedRecord) : Fin 10 → FpVal
  | 0 => FpVal.fin r.median_house_value
  | 1 => FpVal.fin r.median_income
  | 2 => FpVal.fin r.total_rooms
  | 3 => FpVal.fin r.total_bedrooms
  | 4 => FpVal.fin r.population
  | 5 => FpVal.fin r.households
  | 6 => FpVal.fin r.housing_median_age
  | 7 => r.rooms_per_household
  | 8 => r.bedrooms_per_room
  | 9 => r.population_per_household

/-- The `j`-th numeric column of a view, with NaN/inf entries dropped
(the correlation is only claimed over views whose entries are all
finite, where nothing is dropped). -/
def ratCol (j : Fin 10) (v : List PreparedRecord) : List ℚ :=
  (v.map (fun r => tenCols r j)).filterMap FpVal.toFin

/-- Mean of a rational column. -/
def meanQ (xs : List ℚ) : ℚ := xs.sum / xs.length

/-- Covariance of two equal-length rational columns (population form;
the normalisation cancels in the correlation). -/
def covQ (xs ys : List ℚ) : ℚ :=
  (List.zipWith (fun a b => (a - meanQ xs) * (b - meanQ ys)) xs ys).sum / xs.length

/-- Variance of a rational column. -/
def varQ (xs : List ℚ) : ℚ := covQ xs xs

/-- Pearson correlation of two columns. -/
noncomputable def corrR (xs ys : List ℚ) : ℝ :=
  (covQ xs ys : ℝ) / (Real.sqrt (varQ xs) * Real.sqrt (varQ ys))

/-- The correlation matrix `filtered[num_cols].corr()` of a view. -/
noncomputable def corrMatrix (v : List PreparedRecord) : Fin 10 → Fin 10 → ℝ :=
  fun i j => corrR (ratCol i v) (ratCol j v)

/-- The Pearson correlation of two columns is a well-defined number
exactly when neither column has zero variance. -/
def CorrDefined (xs ys : List ℚ) : Prop := varQ xs ≠ 0 ∧ varQ ys ≠ 0

/-- Do all ten numeric cells of every row of the view hold finite
values? -/
def allFiniteB (v : List PreparedRecord) : Bool :=
  v.all (fun r => (List.finRange 10).all (fun j => (tenCols r j).isFin))

/-- Does the column contain two distinct values? -/
def twoDistinctB (xs : List ℚ) : Bool :=
  xs.any (fun a => xs.any (fun b => decide (a ≠ b)))

/-- Does every one of the ten numeric columns of the view contain two
distinct values? -/
def colsDistinctB (v : List PreparedRecord) : Bool :=
  (List.finRange 10).all (fun j => twoDistinctB (ratCol j v))

/-- Does `c'` widen `c`: every range minimum is equal or lower, every
range maximum equal or higher, and every selected label of `c` still
selected in `c'`? -/
def WidensB (c c' : Criteria) : Bool :=
  (decide (c'.ageLo = c.ageLo) || FpVal.le c'.ageLo c.ageLo) &&
  (decide (c'.ageHi = c.ageHi) || FpVal.le c.ageHi c'.ageHi) &&
  (decide (c'.incomeLo = c.incomeLo) || FpVal.le c'.incomeLo c.incomeLo) &&
  (decide (c'.incomeHi = c.incomeHi) || FpVal.le c.incomeHi c'.incomeHi) &&
  (decide (c'.rphLo = c.rphLo) || FpVal.le c'.rphLo c.rphLo) &&
  (decide (c'.rphHi = c.rphHi) || FpVal.le c.rphHi c'.rphHi) &&
  c.oceanSel.all (fun s => decide (s ∈ c'.oceanSel))

lemma fple_ne_nan {a b : FpVal} (h : FpVal.le a b = true) :
    a ≠ FpVal.nan ∧ b ≠ FpVal.nan := by
  cases a <;> cases b <;> simp_all [FpVal.le]

lemma fple_refl {a : FpVal} (h : a ≠ FpVal.nan) : FpVal.le a a = true := by
  cases a <;> simp_all [FpVal.le]

lemma fple_trans {a b c : FpVal} (h1 : FpVal.le a b = true)
    (h2 : FpVal.le b c = true) : FpVal.le a c = true := by
  cases a <;> cases b <;> cases c <;> simp_all [FpVal.le]
  linarith

lemma fple_total {a b : FpVal} (ha : a ≠ FpVal.nan) (hb : b ≠ FpVal.nan) :
    FpVal.le a b = true ∨ FpVal.le b a = true := by
  cases a <;> cases b <;> simp_all [FpVal.le]
  exact le_total _ _

lemma maskSelect_map (l : List PreparedRecord) (p : PreparedRecord → Bool) :
    maskSelect l (l.map p) = l.filter p := by
  induction l with
  | nil => rfl
  | cons r rs ih => by_cases h : p r <;> simp [maskSelect, List.filter_cons, h, ih]

lemma filtered_eq_filter (d : List PreparedRecord) (c : Criteria) :
    filtered d c = d.filter (rowPred c) := by
  unfold filtered
  have hmask : (List.zipWith and
      (List.zipWith and
        (List.zipWith and (d.map (agePred c)) (d.map (incPred c)))
        (d.map (rphPred c)))
      (d.map (oceanPred c))) = d.map (rowPred c) := by
    induction d with
    | nil => rfl
    | cons r rs ih =>
      simp only [List.map_cons, List.zipWith_cons_cons, ih]
      rfl
  rw [hmask, maskSelect_map]

/-- C6: `filtered` returns exactly the rows of the view that satisfy the
conjunction of the four predicates (age range, income range,
rooms-per-household range, ocean-proximity membership), and the result
is a sublist of the input, i.e. the original order is preserved; an
empty result is simply the empty list, not an error. -/
theorem filtered_conjunction_order (d : List PreparedRecord) (c : Criteria) :
    filtered d c
        = d.filter (fun r => agePred c r && incPred c r && rphPred c r && oceanPred c r)
      ∧ List.Sublist (filtered d c) d := by
  refine ⟨filtered_eq_filter d c, ?_⟩
  rw [filtered_eq_filter]
  exact List.filter_sublist d

/-- C8: the filter is idempotent — filtering an already-filtered view
again with the same criteria returns it unchanged. -/
theorem filtered_idempotent (d : List PreparedRecord) (c : Criteria) :
    filtered (filtered d c) c = filtered d c := by
  rw [filtered_eq_filter (filtered d c) c]
  apply List.filter_eq_self.mpr
  intro a ha
  rw [filtered_eq_filter d c] at ha
  exact (List.mem_filter.mp ha).2

lemma between_mono {x lo hi lo' hi' : FpVal}
    (hlo : lo' = lo ∨ FpVal.le lo' lo = true)
    (hhi : hi' = hi ∨ FpVal.le hi hi' = true)
    (h : betweenF x lo hi = true) : betweenF x lo' hi' = true := by
  simp only [betweenF, Bool.and_eq_true] at h ⊢
  obtain ⟨h1, h2⟩ := h
  constructor
  · rcases hlo with rfl | hlo
    · exact h1
    · exact fple_trans hlo h1
  · rcases hhi with rfl | hhi
    · exact h2
    · exact fple_trans h2 hhi

/-- C9: the filter is monotone — widening any criterion (lowering a
range minimum, raising a range maximum, or adding ocean-proximity
labels) while keeping the others at least as wide never loses a row:
every row of the original result is in the new result. -/
theorem filtered_monotone (d : List PreparedRecord) (c c' : Criteria)
    (r : PreparedRecord) (hw : WidensB c c' = true)
    (hr : r ∈ filtered d c) : r ∈ filtered d c' := by
  rw [filtered_eq_filter] at hr ⊢
  rw [List.mem_filter] at hr ⊢
  obtain ⟨hmem, hp⟩ := hr
  refine ⟨hmem, ?_⟩
  simp only [WidensB, Bool.and_eq_true, Bool.or_eq_true, decide_eq_true_eq] at hw
  obtain ⟨⟨⟨⟨⟨⟨hal, hah⟩, hil⟩, hih⟩, hrl⟩, hrh⟩, hoc⟩ := hw
  simp only [rowPred, Bool.and_eq_true] at hp ⊢
  obtain ⟨⟨⟨ha, hi⟩, hrp⟩, ho⟩ := hp
  refine ⟨⟨⟨?_, ?_⟩, ?_⟩, ?_⟩
  · exact between_mono hal hah ha
  · exact between_mono hil hih hi
  · exact between_mono hrl hrh hrp
  · simp only [oceanPred, decide_eq_true_eq] at ho ⊢
    exact of_decide_eq_true (List.all_eq_true.mp hoc _ ho)

/-- Example row used by the monotonicity witness. -/
def exRecA : RawRecord :=
  RawRecord.mk 0 1 10 4 1 3 2 3 100 "A"

/-- A narrow criteria choice satisfied by `exRecA`. -/
def narrowCriteria : Criteria :=
  Criteria.mk (FpVal.fin 5) (FpVal.fin 15) (FpVal.fin 0) (FpVal.fin 10)
    (FpVal.fin 0) (FpVal.fin 10) (List.cons "A" List.nil)

/-- `narrowCriteria` with the age range, rooms range and label set
widened. -/
def wideCriteria : Criteria :=
  Criteria.mk (FpVal.fin 0) (FpVal.fin 20) (FpVal.fin 0) (FpVal.fin 10)
    (FpVal.fin 0) (FpVal.fin 12) (List.cons "A" (List.cons "B" List.nil))

/-- Witness for C9 at a concrete dataset and a concrete widening. -/
theorem filtered_monotone_witness :
    WidensB narrowCriteria wideCriteria = true ∧
    prepareRecord 1 1 exRecA ∈ filtered (load_data [exRecA]) narrowCriteria ∧
    prepareRecord 1 1 exRecA ∈ filtered (load_data [exRecA]) wideCriteria :=
  ⟨by with_unfolding_all decide, by with_unfolding_all decide,
    filtered_monotone (load_data [exRecA]) narrowCriteria wideCriteria
      (prepareRecord 1 1 exRecA) (by with_unfolding_all decide) (by with_unfolding_all decide)⟩

lemma colMin_cons (y : FpVal) (ys : List FpVal) :
    colMin (y :: ys) = fminOp y (colMin ys) := rfl

lemma colMax_cons (y : FpVal) (ys : List FpVal) :
    colMax (y :: ys) = fmaxOp y (colMax ys) := rfl

lemma fminOp_le_left {y m : FpVal} (hy : y ≠ FpVal.nan) :
    FpVal.le (fminOp y m) y = true := by
  unfold fminOp
  split_ifs with h1 h2 h3
  · exact absurd h1 hy
  · exact fple_refl hy
  · exact fple_refl hy
  · rcases fple_total hy h2 with h | h
    · exact absurd h h3
    · exact h

lemma fmaxOp_ge_left {y m : FpVal} (hy : y ≠ FpVal.nan) :
    FpVal.le y (fmaxOp y m) = true := by
  unfold fmaxOp
  split_ifs with h1 h2 h3
  · exact absurd h1 hy
  · exact fple_refl hy
  · exact fple_refl hy
  · rcases fple_total h2 hy with h | h
    · exact absurd h h3
    · exact h

lemma fminOp_le_right {y m x : FpVal} (hm : FpVal.le m x = true) :
    FpVal.le (fminOp y m) x = true := by
  have hmn : m ≠ FpVal.nan := (fple_ne_nan hm).1
  unfold fminOp
  by_cases h1 : y = FpVal.nan
  · rw [if_pos h1]; exact hm
  · rw [if_neg h1, if_neg hmn]
    by_cases h3 : FpVal.le y m
    · rw [if_pos h3]; exact fple_trans h3 hm
    · rw [if_neg h3]; exact hm

lemma fmaxOp_ge_right {y m x : FpVal} (hm : FpVal.le x m = true) :
    FpVal.le x (fmaxOp y m) = true := by
  have hmn : m ≠ FpVal.nan := (fple_ne_nan hm).2
  unfold fmaxOp
  by_cases h1 : y = FpVal.nan
  · rw [if_pos h1]; exact hm
  · rw [if_neg h1, if_neg hmn]
    by_cases h3 : FpVal.le m y
    · rw [if_pos h3]; exact fple_trans hm h3
    · rw [if_neg h3]; exact hm

lemma colMin_le {xs : List FpVal} {x : FpVal} (hx : x ∈ xs)
    (hnan : x ≠ FpVal.nan) : FpVal.le (colMin xs) x = true := by
  induction xs with
  | nil => cases hx
  | cons y ys ih =>
    rw [List.mem_cons] at hx
    rw [colMin_cons]
    rcases hx with rfl | hx
    · exact fminOp_le_left hnan
    · exact fminOp_le_right (ih hx)

lemma colMax_ge {xs : List FpVal} {x : FpVal} (hx : x ∈ xs)
    (hnan : x ≠ FpVal.nan) : FpVal.le x (colMax xs) = true := by
  induction xs with
  | nil => cases hx
  | cons y ys ih =>
    rw [List.mem_cons] at hx
    rw [colMax_cons]
    rcases hx with rfl | hx
    · exact fmaxOp_ge_left hnan
    · exact fmaxOp_ge_right (ih hx)

/-- C1 (amended): provided no record of the loaded dataset has a NaN
`rooms_per_household` (i.e. no record has both `households = 0` and
`total_rooms = 0`), setting every criterion to its full observed extent
returns the entire dataset record for record.  (A NaN ratio fails every
`between` test, so such a record is dropped even by the identity
criteria — see the counterexample.) -/
theorem identity_filter (d : List RawRecord)
    (h : ∀ r ∈ load_data d, r.rooms_per_household ≠ FpVal.nan) :
    filtered (load_data d) (identityCriteria (load_data d)) = load_data d := by
  rw [filtered_eq_filter]
  apply List.filter_eq_self.mpr
  intro r hr
  simp only [rowPred, Bool.and_eq_true]
  refine ⟨⟨⟨?_, ?_⟩, ?_⟩, ?_⟩
  · simp only [agePred, identityCriteria, betweenF, Bool.and_eq_true]
    constructor
    · exact colMin_le (List.mem_map_of_mem _ hr) (by simp)
    · exact colMax_ge (List.mem_map_of_mem _ hr) (by simp)
  · simp only [incPred, identityCriteria, betweenF, Bool.and_eq_true]
    constructor
    · exact colMin_le (List.mem_map_of_mem _ hr) (by simp)
    · exact colMax_ge (List.mem_map_of_mem _ hr) (by simp)
  · simp only [rphPred, identityCriteria, betweenF, Bool.and_eq_true]
    constructor
    · exact colMin_le (List.mem_map_of_mem _ hr) (h r hr)
    · exact colMax_ge (List.mem_map_of_mem _ hr) (h r hr)
  · simp only [oceanPred, identityCriteria, decide_eq_true_eq]
    exact List.mem_dedup.mpr (List.mem_map_of_mem _ hr)

/-- Rows used by the identity-filter witness: both have nonzero
`households`, so both ratios are finite. -/
def idRecA : RawRecord :=
  RawRecord.mk 0 1 10 4 1 3 2 3 100 "A"

/-- Second witness row, with a different label. -/
def idRecB : RawRecord :=
  RawRecord.mk 0 2 30 9 3 8 3 5 200 "B"

/-- Witness for C1 at a concrete two-row dataset. -/
theorem identity_filter_witness :
    ((load_data [idRecA, idRecB]).all
        (fun r => decide (r.rooms_per_household ≠ FpVal.nan))) = true ∧
    filtered (load_data [idRecA, idRecB])
        (identityCriteria (load_data [idRecA, idRecB]))
      = load_data [idRecA, idRecB] :=
  ⟨by with_unfolding_all decide, identity_filter [idRecA, idRecB] (by with_unfolding_all decide)⟩

/-- A row whose `rooms_per_household` is NaN (0 rooms over 0
households). -/
def nanRec : RawRecord :=
  RawRecord.mk 0 2 20 0 0 0 0 5 200 "B"

/-- Counterexample to C1 as stated: with a NaN-ratio row present, the
identity criteria drop that row, so the filtered view is a strict
subset of the dataset. -/
theorem identity_filter_cex :
    filtered (load_data [idRecA, nanRec])
        (identityCriteria (load_data [idRecA, nanRec]))
      ≠ load_data [idRecA, nanRec] := by with_unfolding_all decide

/-- C10 (amended): for every criteria whose rooms-per-household bounds
are finite — as every slider-produced criteria is, the widget bounds
being finite floats with the maximum capped at `min(10, observed max)` —
every row of the filtered view has a finite `rooms_per_household` and
nonzero `households`; in particular every record with `households = 0`
is excluded.  (Records with `total_rooms = 0` but `households ≠ 0` have
a finite ratio and are NOT excluded — see the counterexample.) -/
theorem filtered_rph_finite (d : List RawRecord) (c : Criteria)
    (hlo : c.rphLo.isFin = true) (hhi : c.rphHi.isFin = true)
    (r : PreparedRecord) (hr : r ∈ filtered (load_data d) c) :
    r.rooms_per_household.isFin = true ∧ r.households ≠ 0 := by
  rw [filtered_eq_filter, List.mem_filter] at hr
  obtain ⟨hmem, hp⟩ := hr
  simp only [rowPred, Bool.and_eq_true] at hp
  obtain ⟨⟨⟨-, -⟩, hrph⟩, -⟩ := hp
  simp only [rphPred, betweenF, Bool.and_eq_true] at hrph
  obtain ⟨h1, h2⟩ := hrph
  obtain ⟨a, ha⟩ : ∃ a, c.rphLo = FpVal.fin a := by
    cases hv : c.rphLo <;> simp_all [FpVal.isFin]
  obtain ⟨b, hb⟩ : ∃ b, c.rphHi = FpVal.fin b := by
    cases hv : c.rphHi <;> simp_all [FpVal.isFin]
  rw [ha] at h1
  rw [hb] at h2
  have hfin : r.rooms_per_household.isFin = true := by
    cases hx : r.rooms_per_household <;> rw [hx] at h1 h2 <;>
      simp_all [FpVal.le, FpVal.isFin]
  refine ⟨hfin, ?_⟩
  simp only [load_data, List.mem_map] at hmem
  obtain ⟨raw, hraw, rfl⟩ := hmem
  intro h0
  simp only [prepareRecord] at h0 hfin
  rw [h0] at hfin
  simp only [fdivQ, if_pos rfl] at hfin
  split_ifs at hfin <;> simp_all [FpVal.isFin]

/-- A slider-reachable criteria choice with finite bounds. -/
def finCrit : Criteria :=
  Criteria.mk (FpVal.fin 0) (FpVal.fin 50) (FpVal.fin 0) (FpVal.fin 10)
    (FpVal.fin 0) (FpVal.fin 10) (List.cons "A" List.nil)

/-- Row with nonzero households used by the C10 witness. -/
def rphRecA : RawRecord :=
  RawRecord.mk 0 1 10 4 1 3 2 3 100 "A"

/-- Witness for C10 at a concrete dataset and criteria. -/
theorem filtered_rph_finite_witness :
    finCrit.rphLo.isFin = true ∧ finCrit.rphHi.isFin = true ∧
    prepareRecord 1 1 rphRecA ∈ filtered (load_data [rphRecA]) finCrit ∧
    ((prepareRecord 1 1 rphRecA).rooms_per_household.isFin = true ∧
      (prepareRecord 1 1 rphRecA).households ≠ 0) :=
  ⟨by with_unfolding_all decide, by with_unfolding_all decide, by with_unfolding_all decide,
    filtered_rph_finite [rphRecA] finCrit (by with_unfolding_all decide) (by with_unfolding_all decide)
      (prepareRecord 1 1 rphRecA) (by with_unfolding_all decide)⟩

/-- Row with `total_rooms = 0` but one household: its
`rooms_per_household` is 0, a perfectly finite value. -/
def zeroRoomsRec : RawRecord :=
  RawRecord.mk 0 1 10 0 0 3 1 3 100 "A"

/-- Counterexample to C10 as stated: a record with `total_rooms = 0`
(but `households = 1`) is NOT excluded from the filtered view — its
`rooms_per_household` is the finite value 0 and it passes the filter. -/
theorem filtered_rph_finite_cex :
    zeroRoomsRec.total_rooms = 0 ∧
    prepareRecord 1 1 zeroRoomsRec ∈ filtered (load_data [zeroRoomsRec]) finCrit := by
  constructor
  · with_unfolding_all decide
  · with_unfolding_all decide

/-- Criteria with an empty ocean-proximity selection: the filter then
matches no row, giving an empty filtered view. -/
def noLabelCrit : Criteria :=
  Criteria.mk (FpVal.fin 0) (FpVal.fin 50) (FpVal.fin 0) (FpVal.fin 10)
    (FpVal.fin 0) (FpVal.fin 10) List.nil

/-- Row used to exhibit the empty filtered view for C2. -/
def c2Rec : RawRecord :=
  RawRecord.mk 0 1 10 4 1 3 2 3 100 "A"

/-- C2 (code bug): on an empty filtered view — reachable, e.g. by
deselecting every ocean-proximity label — the KPI values rendered by
`k1.metric` and `k2.metric` are `mean()` of an empty column, which is
NaN; the f-string then renders the string "$nan" instead of the
"no data" placeholder the spec requires.  Nothing throws and the row
count is 0, but a NaN is silently passed into a rendered number. -/
theorem empty_view_kpis_nan :
    filtered (load_data [c2Rec]) noLabelCrit = [] ∧
    kpiAvgHouseValue (filtered (load_data [c2Rec]) noLabelCrit) = FpVal.nan ∧
    kpiAvgIncome (filtered (load_data [c2Rec]) noLabelCrit) = FpVal.nan ∧
    kpiCount (filtered (load_data [c2Rec]) noLabelCrit) = 0 := by with_unfolding_all decide

/-- C3 (amended): each derived ratio equals the exact quotient whenever
its denominator is nonzero; with a zero denominator the stored value is
NaN only when the numerator is also zero, and a signed infinity
otherwise (the positive case is the one reachable from count data).
NaN cells are skipped by `mean()`; infinite cells are NOT skipped and
propagate — see the counterexample. -/
theorem derived_ratio_semantics :
    (∀ (mn mx : ℚ) (r : RawRecord),
      ((r.households ≠ 0 →
          (prepareRecord mn mx r).rooms_per_household
            = FpVal.fin (r.total_rooms / r.households)) ∧
        (r.households = 0 → r.total_rooms = 0 →
          (prepareRecord mn mx r).rooms_per_household = FpVal.nan) ∧
        (r.households = 0 → 0 < r.total_rooms →
          (prepareRecord mn mx r).rooms_per_household = FpVal.inf)) ∧
      ((r.total_rooms ≠ 0 →
          (prepareRecord mn mx r).bedrooms_per_room
            = FpVal.fin (r.total_bedrooms / r.total_rooms)) ∧
        (r.total_rooms = 0 → r.total_bedrooms = 0 →
          (prepareRecord mn mx r).bedrooms_per_room = FpVal.nan) ∧
        (r.total_rooms = 0 → 0 < r.total_bedrooms →
          (prepareRecord mn mx r).bedrooms_per_room = FpVal.inf)) ∧
      ((r.households ≠ 0 →
          (prepareRecord mn mx r).population_per_household
            = FpVal.fin (r.population / r.households)) ∧
        (r.households = 0 → r.population = 0 →
          (prepareRecord mn mx r).population_per_household = FpVal.nan) ∧
        (r.households = 0 → 0 < r.population →
          (prepareRecord mn mx r).population_per_household = FpVal.inf)))
    ∧ (∀ xs : List FpVal,
        meanF xs = meanF (xs.filter (fun x => decide (x ≠ FpVal.nan)))) := by
  constructor
  · intro mn mx r
    refine ⟨⟨?_, ?_, ?_⟩, ⟨?_, ?_, ?_⟩, ⟨?_, ?_, ?_⟩⟩ <;> intro h
    · simp [prepareRecord, fdivQ, h]
    · intro h2; simp [prepareRecord, fdivQ, h, h2]
    · intro h2; simp [prepareRecord, fdivQ, h, h2, h2.ne']
    · simp [prepareRecord, fdivQ, h]
    · intro h2; simp [prepareRecord, fdivQ, h, h2]
    · intro h2; simp [prepareRecord, fdivQ, h, h2, h2.ne']
    · simp [prepareRecord, fdivQ, h]
    · intro h2; simp [prepareRecord, fdivQ, h, h2]
    · intro h2; simp [prepareRecord, fdivQ, h, h2, h2.ne']
  · intro xs
    have hff : (xs.filter (fun x => decide (x ≠ FpVal.nan))).filter
        (fun x => decide (x ≠ FpVal.nan))
          = xs.filter (fun x => decide (x ≠ FpVal.nan)) := by
      apply List.filter_eq_self.mpr
      intro a ha
      exact (List.mem_filter.mp ha).2
    simp only [meanF]
    rw [hff]

/-- Witness for C3: one row per reachable branch of the division. -/
theorem derived_ratio_semantics_witness :
    (prepareRecord 0 1 (RawRecord.mk 0 0 10 4 1 3 2 3 100 "A")).rooms_per_household
        = FpVal.fin 2 ∧
    (prepareRecord 0 1 (RawRecord.mk 0 0 20 0 0 0 0 5 200 "B")).rooms_per_household
        = FpVal.nan ∧
    (prepareRecord 0 1 (RawRecord.mk 0 0 20 5 0 0 0 5 200 "B")).rooms_per_household
        = FpVal.inf := by
  refine ⟨?_, ?_, ?_⟩
  · rw [(derived_ratio_semantics.1 0 1 (RawRecord.mk 0 0 10 4 1 3 2 3 100 "A")).1.1
      (by with_unfolding_all decide)]
    with_unfolding_all decide
  · exact (derived_ratio_semantics.1 0 1 (RawRecord.mk 0 0 20 0 0 0 0 5 200 "B")).1.2.1
      (by with_unfolding_all decide) (by with_unfolding_all decide)
  · exact (derived_ratio_semantics.1 0 1 (RawRecord.mk 0 0 20 5 0 0 0 5 200 "B")).1.2.2
      (by with_unfolding_all decide) (by with_unfolding_all decide)

/-- Counterexample to C3 as stated: dividing 7 rooms by 0 households
stores +infinity, not the claimed NaN sentinel, and `mean()` does not
exclude the infinity — the mean of a column holding 2 and +inf is +inf,
not 2. -/
theorem derived_ratio_cex :
    (prepareRecord 0 1 (RawRecord.mk 0 0 20 7 0 0 0 5 200 "B")).rooms_per_household
        = FpVal.inf ∧
    FpVal.inf ≠ FpVal.nan ∧
    meanF [FpVal.fin 2, FpVal.inf] = FpVal.inf := by with_unfolding_all decide

set_option maxHeartbeats 1600000 in
/-- C4 (amended): `age_bin` uses the fixed edges 0,5,...,50, but the
intervals are right-closed: a value receives a bin exactly when
`0 < v ≤ 50`, and bin `i` covers `(5i, 5(i+1)]`.  Hence age = 50 falls
inside the last bin and only ages > 50 (or ≤ 0) fall outside. -/
theorem age_bin_intervals (v : ℚ) :
    ((ageBin v).isSome = true ↔ (0 < v ∧ v ≤ 50)) ∧
    (∀ i : Fin 10, ageBin v = some i →
      5 * (i.val : ℚ) < v ∧ v ≤ 5 * ((i.val : ℚ) + 1)) := by
  constructor
  · by_cases h : 0 < v ∧ v ≤ 50
    · rw [ageBin, if_pos h]
      constructor
      · intro _; exact h
      · intro _; split_ifs <;> rfl
    · rw [ageBin, if_neg h]
      simp [h]
  · intro i hi
    rw [ageBin] at hi
    by_cases h : 0 < v ∧ v ≤ 50
    · rw [if_pos h] at hi
      obtain ⟨hl, hr⟩ := h
      split_ifs at hi with h1 h2 h3 h4 h5 h6 h7 h8 h9
      · injection hi with hh; subst hh
        rw [show (((0 : Fin 10)).val : ℚ) = 0 by exact_mod_cast rfl]
        constructor <;> linarith
      · injection hi with hh; subst hh
        rw [show (((1 : Fin 10)).val : ℚ) = 1 by exact_mod_cast rfl]
        constructor <;> linarith
      · injection hi with hh; subst hh
        rw [show (((2 : Fin 10)).val : ℚ) = 2 by exact_mod_cast rfl]
        constructor <;> linarith
      · injection hi with hh; subst hh
        rw [show (((3 : Fin 10)).val : ℚ) = 3 by exact_mod_cast rfl]
        constructor <;> linarith
      · injection hi with hh; subst hh
        rw [show (((4 : Fin 10)).val : ℚ) = 4 by exact_mod_cast rfl]
        constructor <;> linarith
      · injection hi with hh; subst hh
        rw [show (((5 : Fin 10)).val : ℚ) = 5 by exact_mod_cast rfl]
        constructor <;> linarith
      · injection hi with hh; subst hh
        rw [show (((6 : Fin 10)).val : ℚ) = 6 by exact_mod_cast rfl]
        constructor <;> linarith
      · injection hi with hh; subst hh
        rw [show (((7 : Fin 10)).val : ℚ) = 7 by exact_mod_cast rfl]
        constructor <;> linarith
      · injection hi with hh; subst hh
        rw [show (((8 : Fin 10)).val : ℚ) = 8 by exact_mod_cast rfl]
        constructor <;> linarith
      · injection hi with hh; subst hh
        rw [show (((9 : Fin 10)).val : ℚ) = 9 by exact_mod_cast rfl]
        constructor <;> linarith
    · rw [if_neg h] at hi
      cases hi

/-- Witness for C4: age 7 lands in bin 1 = (5,10]. -/
theorem age_bin_intervals_witness :
    ageBin 7 = some 1 ∧
    (5 * (((1 : Fin 10)).val : ℚ) < 7 ∧ (7 : ℚ) ≤ 5 * ((((1 : Fin 10)).val : ℚ) + 1)) :=
  ⟨by with_unfolding_all decide, (age_bin_intervals 7).2 1 (by with_unfolding_all decide)⟩

/-- Counterexample to C4 as stated: age exactly 50 falls INSIDE the
last bin (the claim says every age ≥ 50 is outside all bins), while
age 0 — inside the claimed coverage [0,50) — falls outside all bins. -/
theorem age_bin_cex : ageBin 50 = some 9 ∧ ageBin 0 = none := by with_unfolding_all decide

/-- C5 (amended): with distinct observed extremes, `lat_bin` has
exactly 5 equal-width bins whose edges are `latEdge mn mx 0..5`; every
value in [min, max] receives a bin — so the minimum (via the
0.1%-extended bottom edge) lands in bin 0 and the maximum in bin 4 —
and the assignment is right-closed, bin `i` being
`(edge_i, edge_{i+1}]`, not the spec's `floor((v-min)/width)` rule
(see the counterexample). -/
theorem lat_bin_assignment (mn mx v : ℚ) (hlt : mn < mx)
    (hv1 : mn ≤ v) (hv2 : v ≤ mx) :
    (∃ i : Fin 5, latBin mn mx v = some i) ∧
    latBin mn mx mn = some 0 ∧
    latBin mn mx mx = some 4 ∧
    (∀ i : Fin 5, latBin mn mx v = some i →
      latEdge mn mx i.val < v ∧ v ≤ latEdge mn mx (i.val + 1)) := by
  have hne : mn ≠ mx := ne_of_lt hlt
  have hreg : mn - (mx - mn) / 1000 < v ∧ v ≤ mx := ⟨by linarith, hv2⟩
  have hfive : mn + 5 * ((mx - mn) / 5) = mx := by ring
  refine ⟨?_, ?_, ?_, ?_⟩
  · simp only [latBin, if_neg hne, if_pos hreg]
    split_ifs <;> exact ⟨_, rfl⟩
  · have hreg0 : mn - (mx - mn) / 1000 < mn ∧ mn ≤ mx :=
      ⟨by linarith, le_of_lt hlt⟩
    simp only [latBin, if_neg hne, if_pos hreg0]
    rw [if_pos (by linarith : mn ≤ mn + (mx - mn) / 5)]
  · have hreg4 : mn - (mx - mn) / 1000 < mx ∧ mx ≤ mx := ⟨by linarith, le_refl mx⟩
    simp only [latBin, if_neg hne, if_pos hreg4]
    rw [if_neg (by intro hcon; linarith : ¬ mx ≤ mn + (mx - mn) / 5),
      if_neg (by intro hcon; linarith : ¬ mx ≤ mn + 2 * ((mx - mn) / 5)),
      if_neg (by intro hcon; linarith : ¬ mx ≤ mn + 3 * ((mx - mn) / 5)),
      if_neg (by intro hcon; linarith : ¬ mx ≤ mn + 4 * ((mx - mn) / 5))]
  · intro i hik
    simp only [latBin, if_neg hne, if_pos hreg] at hik
    split_ifs at hik with g1 g2 g3 g4
    · injection hik with hh; subst hh
      rw [show ((0 : Fin 5)).val = 0 from rfl]
      simp only [latEdge]
      norm_num
      constructor <;> linarith
    · injection hik with hh; subst hh
      rw [show ((1 : Fin 5)).val = 1 from rfl]
      simp only [latEdge]
      norm_num
      constructor <;> linarith
    · injection hik with hh; subst hh
      rw [show ((2 : Fin 5)).val = 2 from rfl]
      simp only [latEdge]
      norm_num
      constructor <;> linarith
    · injection hik with hh; subst hh
      rw [show ((3 : Fin 5)).val = 3 from rfl]
      simp only [latEdge]
      norm_num
      constructor <;> linarith
    · injection hik with hh; subst hh
      rw [show ((4 : Fin 5)).val = 4 from rfl]
      simp only [latEdge]
      norm_num
      constructor <;> linarith

/-- Witness for C5 on the range [0,10]: bins are
(-0.01,2], (2,4], (4,6], (6,8], (8,10]; the value 7 falls in bin 3. -/
theorem lat_bin_assignment_witness :
    latBin 0 10 7 = some 3 ∧
    latBin 0 10 0 = some 0 ∧
    latBin 0 10 10 = some 4 ∧
    (latEdge 0 10 (((3 : Fin 5)).val) < 7 ∧
      (7 : ℚ) ≤ latEdge 0 10 ((((3 : Fin 5)).val) + 1)) :=
  ⟨by with_unfolding_all decide,
    (lat_bin_assignment 0 10 7 (by norm_num) (by norm_num) (by norm_num)).2.1,
    (lat_bin_assignment 0 10 7 (by norm_num) (by norm_num) (by norm_num)).2.2.1,
    (lat_bin_assignment 0 10 7 (by norm_num) (by norm_num) (by norm_num)).2.2.2 3
      (by with_unfolding_all decide)⟩

/-- Counterexample to C5 as stated: on the range [0,10] (width 2) the
value 2 sits on an interior edge; `pd.cut` puts it in bin 0 (the
right-closed interval (-0.01, 2]) while the spec's
`floor((value-min)/width)` rule puts it in bin 1. -/
theorem lat_bin_spec_divergence :
    latBin 0 10 2 = some 0 ∧
    latBinSpec 0 10 2 = 1 ∧
    Option.map Fin.val (latBin 0 10 2) ≠ some (latBinSpec 0 10 2) := by
  with_unfolding_all decide

lemma zipWith_self_eq_map (f : ℚ → ℚ → ℚ) (l : List ℚ) :
    List.zipWith f l l = l.map (fun a => f a a) := by
  induction l with
  | nil => rfl
  | cons x xs ih => simp [List.zipWith_cons_cons, ih]

lemma covQ_comm {xs ys : List ℚ} (hlen : xs.length = ys.length) :
    covQ xs ys = covQ ys xs := by
  unfold covQ
  rw [hlen, List.zipWith_comm]
  have hF : (fun (b a : ℚ) => (a - meanQ xs) * (b - meanQ ys))
      = (fun (b a : ℚ) => (b - meanQ ys) * (a - meanQ xs)) := by
    funext b a
    ring
  rw [hF]

lemma varQ_eq_sq_sum (xs : List ℚ) :
    varQ xs = (xs.map (fun a => (a - meanQ xs) * (a - meanQ xs))).sum / xs.length := by
  unfold varQ covQ
  rw [zipWith_self_eq_map]

lemma varQ_nonneg (xs : List ℚ) : 0 ≤ varQ xs := by
  rw [varQ_eq_sq_sum]
  apply div_nonneg
  · apply List.sum_nonneg
    intro x hx
    obtain ⟨a, _, rfl⟩ := List.mem_map.mp hx
    exact mul_self_nonneg _
  · exact Nat.cast_nonneg _

lemma sum_eq_zero_mem {l : List ℚ} (hn : ∀ x ∈ l, 0 ≤ x) (hs : l.sum = 0) :
    ∀ x ∈ l, x = 0 := by
  induction l with
  | nil => intro x hx; cases hx
  | cons y ys ih =>
    rw [List.sum_cons] at hs
    have hy : 0 ≤ y := hn y (List.mem_cons_self y ys)
    have hys : 0 ≤ ys.sum :=
      List.sum_nonneg (fun x hx => hn x (List.mem_cons_of_mem y hx))
    intro x hx
    rcases List.mem_cons.mp hx with rfl | hx
    · linarith
    · exact ih (fun z hz => hn z (List.mem_cons_of_mem y hz)) (by linarith) x hx

lemma varQ_ne_zero {xs : List ℚ} (h : twoDistinctB xs = true) : varQ xs ≠ 0 := by
  simp only [twoDistinctB, List.any_eq_true, decide_eq_true_eq] at h
  obtain ⟨a, ha, b, hb, hab⟩ := h
  intro h0
  rw [varQ_eq_sq_sum] at h0
  have hlen : (xs.length : ℚ) ≠ 0 := by
    have hne : xs ≠ [] := by
      intro he
      subst he
      cases ha
    exact Nat.cast_ne_zero.mpr (List.length_pos.mpr hne).ne'
  rw [div_eq_zero_iff] at h0
  rcases h0 with h0 | h0
  · have hall := sum_eq_zero_mem
      (fun x hx => by
        obtain ⟨c, _, rfl⟩ := List.mem_map.mp hx
        exact mul_self_nonneg _) h0
    have h1 := hall _ (List.mem_map_of_mem (fun a => (a - meanQ xs) * (a - meanQ xs)) ha)
    have h2 := hall _ (List.mem_map_of_mem (fun a => (a - meanQ xs) * (a - meanQ xs)) hb)
    have ha' : a = meanQ xs := by have := mul_self_eq_zero.mp h1; linarith
    have hb' : b = meanQ xs := by have := mul_self_eq_zero.mp h2; linarith
    exact hab (ha'.trans hb'.symm)
  · exact hlen h0

lemma ratCol_length {v : List PreparedRecord} (hf : allFiniteB v = true)
    (j : Fin 10) : (ratCol j v).length = v.length := by
  unfold ratCol
  induction v with
  | nil => rfl
  | cons r rs ih =>
    simp only [allFiniteB, List.all_cons, Bool.and_eq_true] at hf
    obtain ⟨hr, hrs⟩ := hf
    have hj : (tenCols r j).isFin = true :=
      List.all_eq_true.mp hr j (List.mem_finRange j)
    obtain ⟨q, hq⟩ : ∃ q, tenCols r j = FpVal.fin q := by
      cases hx : tenCols r j <;> simp_all [FpVal.isFin]
    simp only [List.map_cons, List.filterMap_cons, hq, FpVal.toFin, List.length_cons]
    rw [ih hrs]

/-- C7: over every view whose ten heatmap columns hold finite values
(per spec §7, non-finite ratios are excluded from correlations) and
each contain at least two distinct rows, the Pearson correlation matrix
is symmetric with 1 on the diagonal; and the correlation is undefined
whenever a column has zero variance. -/
theorem corr_matrix_props :
    (∀ v : List PreparedRecord, allFiniteB v = true → colsDistinctB v = true →
      (∀ i j, corrMatrix v i j = corrMatrix v j i) ∧
      (∀ i, corrMatrix v i i = 1)) ∧
    (∀ xs ys : List ℚ, varQ xs = 0 → ¬ CorrDefined xs ys) := by
  constructor
  · intro v hf hd
    constructor
    · intro i j
      unfold corrMatrix corrR
      rw [covQ_comm (by rw [ratCol_length hf i, ratCol_length hf j]), mul_comm]
    · intro i
      have hvar : varQ (ratCol i v) ≠ 0 :=
        varQ_ne_zero (List.all_eq_true.mp hd i (List.mem_finRange i))
      unfold corrMatrix corrR
      rw [show covQ (ratCol i v) (ratCol i v) = varQ (ratCol i v) from rfl]
      rw [Real.mul_self_sqrt (by exact_mod_cast varQ_nonneg (ratCol i v))]
      rw [div_self (by exact_mod_cast hvar)]
  · intro xs ys h0 hc
    exact hc.1 h0

/-- First row for the correlation witness. -/
def corrRecA : RawRecord :=
  RawRecord.mk 0 1 10 4 1 3 2 3 100 "A"

/-- Second row for the correlation witness: differs from `corrRecA` in
all ten heatmap columns, including the three derived ratios. -/
def corrRecB : RawRecord :=
  RawRecord.mk 0 2 30 9 3 8 3 5 200 "B"

/-- Witness for C7 at a concrete two-row view. -/
theorem corr_matrix_props_witness :
    allFiniteB (load_data [corrRecA, corrRecB]) = true ∧
    colsDistinctB (load_data [corrRecA, corrRecB]) = true ∧
    corrMatrix (load_data [corrRecA, corrRecB]) 0 1
      = corrMatrix (load_data [corrRecA, corrRecB]) 1 0 ∧
    corrMatrix (load_data [corrRecA, corrRecB]) 0 0 = 1 :=
  ⟨by with_unfolding_all decide, by with_unfolding_all decide,
    ((corr_matrix_props.1 (load_data [corrRecA, corrRecB])
        (by with_unfolding_all decide) (by with_unfolding_all decide)).1) 0 1,
    ((corr_matrix_props.1 (load_data [corrRecA, corrRecB])
        (by with_unfolding_all decide) (by with_unfolding_all decide)).2) 0⟩
